import Mathlib

/-!
# FlashyCardy — verification of the ownership-scoped data layer and study session engine

Shallow embedding of the repository's core:

* the Drizzle/Postgres data model (`src/db/schema.ts`): `decksTable`, `cardsTable`,
  with `cards.deckId` referencing `decks.id` with `onDelete: "cascade"`;
* the query layer (`src/db/queries/deck-queries.ts`, card queries):
  `getDeckById`, `getDeckCards`, `getUserDeckCount`, `createDeckForUser`,
  `updateDeckForUser`, `deleteDeckForUser`, `getCardById`, `createCardForDeck`,
  `updateCardForUser`, `deleteCardForUser`;
* the server actions (`createDeck`, `updateDeck`, `createCard`,
  `updateCard`, `deleteCard`, `generateCardsWithAI`) with their Zod
  validation and error handling;
* the study-session state machine of the `FlashcardStudy` client component.

The store is a pair of row lists plus the identity sequences of the two tables.
Timestamps are abstracted to `Nat` instants supplied by callers (`new Date()`
in the source); string lengths count characters. Database rows are returned
in list order; the SQL row set of a `select ... where` is a `List.filter`,
a unique-row lookup is `List.find?`.
-/

/-- A row of `decksTable` (`src/db/schema.ts`): `id` integer primary key
(generated always as identity), `userId` varchar not null, `name` varchar not
null, `description` text (nullable), `createdAt`/`updatedAt` timestamps. -/
structure Deck where
  id : Nat
  userId : String
  name : String
  description : Option String
  createdAt : Nat
  updatedAt : Nat
deriving Repr, DecidableEq

/-- A row of `cardsTable` (`src/db/schema.ts`): `id` integer primary key
(generated always as identity), `deckId` integer not null referencing
`decks.id` with cascade delete, `front`/`back` text not null,
`createdAt`/`updatedAt` timestamps. -/
structure Card where
  id : Nat
  deckId : Nat
  front : String
  back : String
  createdAt : Nat
  updatedAt : Nat
deriving Repr, DecidableEq

/-- The relational store: the two tables plus their identity sequences
(`generatedAlwaysAsIdentity` assigns `nextDeckId` / `nextCardId` to the next
inserted row). -/
structure Store where
  decks : List Deck
  cards : List Card
  nextDeckId : Nat
  nextCardId : Nat
deriving Repr, DecidableEq

/-! ## Query layer: deck queries (`src/db/queries/deck-queries.ts`) -/

/-- The `getDeckById(deckId, userId)`: `select from decks where id = deckId and
userId = userId`, then `deck || null`. Total (never throws); `none` both when
the deck does not exist and when it belongs to another user. -/
def getDeckById (s : Store) (deckId : Nat) (userId : String) : Option Deck :=
  s.decks.find? (fun d => d.id == deckId && d.userId == userId)

/-- The `getUserDeckCount(userId)`: `select count(*) from decks where userId = userId`. -/
def getUserDeckCount (s : Store) (userId : String) : Nat :=
  (s.decks.filter (fun d => d.userId == userId)).length

/-- Insertion step of sorting cards by `updatedAt` descending. -/
def insertByUpdatedAtDesc (c : Card) : List Card → List Card
  | [] => [c]
  | x :: xs =>
    if c.updatedAt ≤ x.updatedAt then x :: insertByUpdatedAtDesc c xs
    else c :: x :: xs

/-- The `orderBy desc(cardsTable.updatedAt)`: sort by `updatedAt`, latest first. -/
def sortByUpdatedAtDesc : List Card → List Card
  | [] => []
  | c :: cs => insertByUpdatedAtDesc c (sortByUpdatedAtDesc cs)

/-- The `getDeckCards(deckId, userId)`: verifies deck ownership via `getDeckById`
first and returns `null` if it fails; otherwise all cards of the deck ordered
by `updatedAt` descending. -/
def getDeckCards (s : Store) (deckId : Nat) (userId : String) :
    Option (List Card) :=
  match getDeckById s deckId userId with
  | none => none
  | some _ =>
    some (sortByUpdatedAtDesc (s.cards.filter (fun c => c.deckId == deckId)))

/-- The `createDeckForUser(userId, {name, description})`: unconditional insert with
`returning()`; the identity column assigns `nextDeckId`, the timestamp columns
default to now. -/
def createDeckForUser (s : Store) (userId : String) (name : String)
    (description : Option String) (now : Nat) : Store × Deck :=
  let d : Deck :=
    { id := s.nextDeckId, userId := userId, name := name,
      description := description, createdAt := now, updatedAt := now }
  ({ s with decks := s.decks ++ [d], nextDeckId := s.nextDeckId + 1 }, d)

/-- The `set` clause of `updateDeckForUser`: overwrite `name` and
`updatedAt`, keep every other column. The `description` entry of the set
object is `data.description`, which may be `undefined` (the action schema
marks it optional), and drizzle's `.set()` skips `undefined` entries — so an
absent description leaves the stored column unchanged (this operation cannot
null the column). -/
def updateDeckRow (d : Deck) (name : String) (description : Option String)
    (now : Nat) : Deck :=
  { d with
    name := name
    description := match description with
      | some v => some v
      | none => d.description
    updatedAt := now }

/-- The `updateDeckForUser(deckId, userId, data)`: verifies ownership via
`getDeckById` and throws `"Deck not found or unauthorized"` if it fails, then
runs `update decks set name, description, updatedAt where id = deckId`.
The source also hands the updated row back to its caller via `returning()`;
the embedding exposes the updated store, from which that row is read back. -/
def updateDeckForUser (s : Store) (deckId : Nat) (userId : String)
    (name : String) (description : Option String) (now : Nat) :
    Except String Store :=
  match getDeckById s deckId userId with
  | none => Except.error "Deck not found or unauthorized"
  | some _ =>
    Except.ok { s with
      decks := s.decks.map (fun d =>
        if d.id == deckId then updateDeckRow d name description now else d) }

/-- The `deleteDeckForUser(deckId, userId)`: verifies ownership via `getDeckById`
and throws `"Deck not found or unauthorized"` if it fails, then
`delete from decks where id = deckId`; the foreign key
`cards.deckId references decks.id onDelete cascade` (schema.ts) removes every
card of the deck in the same statement. -/
def deleteDeckForUser (s : Store) (deckId : Nat) (userId : String) :
    Except String Store :=
  match getDeckById s deckId userId with
  | none => Except.error "Deck not found or unauthorized"
  | some _ =>
    Except.ok { s with
      decks := s.decks.filter (fun d => d.id != deckId),
      cards := s.cards.filter (fun c => c.deckId != deckId) }

/-! ## Query layer: card queries -/

/-- The `getCardById(cardId, userId)`: select with a join of `cards` to `decks` on
`cards.deckId = decks.id`, filtered by `cards.id = cardId and decks.userId =
userId`, then `result[0]?.card || null`. Total; `none` both when the card does
not exist and when its deck belongs to another user. -/
def getCardById (s : Store) (cardId : Nat) (userId : String) : Option Card :=
  match s.cards.find? (fun c => c.id == cardId) with
  | none => none
  | some c =>
    match s.decks.find? (fun d => d.id == c.deckId && d.userId == userId) with
    | none => none
    | some _ => some c

/-- The insert of `createCardForDeck`: the identity column assigns
`nextCardId`, timestamps default to now. -/
def insertCard (s : Store) (deckId : Nat) (front back : String) (now : Nat) :
    Store × Card :=
  let c : Card :=
    { id := s.nextCardId, deckId := deckId, front := front, back := back,
      createdAt := now, updatedAt := now }
  ({ s with cards := s.cards ++ [c], nextCardId := s.nextCardId + 1 }, c)

/-- The `createCardForDeck(deckId, userId, data)`: verifies deck ownership via
`getDeckById` and throws `"Deck not found or unauthorized"` if it fails, then
inserts one card. -/
def createCardForDeck (s : Store) (deckId : Nat) (userId : String)
    (front back : String) (now : Nat) : Except String (Store × Card) :=
  match getDeckById s deckId userId with
  | none => Except.error "Deck not found or unauthorized"
  | some _ => Except.ok (insertCard s deckId front back now)

/-- The `set` clause of `updateCardForUser`: overwrite `front`, `back` and
`updatedAt`, keep every other column. -/
def updateCardRow (c : Card) (front back : String) (now : Nat) : Card :=
  { c with front := front, back := back, updatedAt := now }

/-- The `updateCardForUser(cardId, userId, data)`: verifies ownership via
`getCardById` and throws `"Card not found or unauthorized"` if it fails, then
runs `update cards set front, back, updatedAt where id = cardId`. As with
`updateDeckForUser`, the `returning()` row is read back from the store. -/
def updateCardForUser (s : Store) (cardId : Nat) (userId : String)
    (front back : String) (now : Nat) : Except String Store :=
  match getCardById s cardId userId with
  | none => Except.error "Card not found or unauthorized"
  | some _ =>
    Except.ok { s with
      cards := s.cards.map (fun c =>
        if c.id == cardId then updateCardRow c front back now else c) }

/-- The `deleteCardForUser(cardId, userId)`: verifies ownership via `getCardById`
and throws `"Card not found or unauthorized"` if it fails, then
`delete from cards where id = cardId`. Returns no value (void). -/
def deleteCardForUser (s : Store) (cardId : Nat) (userId : String) :
    Except String Store :=
  match getCardById s cardId userId with
  | none => Except.error "Card not found or unauthorized"
  | some _ =>
    Except.ok { s with cards := s.cards.filter (fun c => c.id != cardId) }

/-! ## Server actions

The actions authenticate, validate with Zod, call the query layer and map any
thrown `Error` to `{ success: false, error: message }`. The result shape
`{ success: true, data } | { success: false, error }` is embedded as
`ActionResult`; the authenticated caller is `Option String` (`userId` from
`auth()`, `none` when signed out). Actions that touch the store also return
the list of store queries they executed, in order, so that "touches the store"
is an observable of the embedding. -/

/-- The `{ success: true, data } | { success: false, error }` result shape of
every server action. -/
inductive ActionResult (α : Type) where
  | ok (data : α)
  | err (msg : String)
deriving Repr, DecidableEq

/-- One store access performed by an action (directly or through the query
layer it calls). -/
inductive DbQuery where
  | countDecks (userId : String)
  | insertDeck (userId : String) (name : String) (description : Option String)
  | getDeck (deckId : Nat) (userId : String)
  | insertCard (deckId : Nat) (front back : String)
  | getCard (cardId : Nat) (userId : String)
  | deleteCardRow (cardId : Nat)
  | setDeckRow (deckId : Nat)
  | setCardRow (cardId : Nat)
deriving Repr, DecidableEq

/-- The `createDeckSchema`: `name` 1..255 chars, optional `description` ≤ 1000
chars; first failing field's message, as Zod reports `error.issues[0].message`. -/
def createDeckValidationError (name : String) (description : Option String) :
    Option String :=
  if name.length < 1 then some "Deck name is required"
  else if name.length > 255 then some "Deck name is too long"
  else
    match description with
    | some d => if d.length > 1000 then some "Description is too long" else none
    | none => none

/-- The server action `createDeck` (deck actions file): authenticate; for a
user without the `unlimited_decks` feature run `getUserDeckCount` and refuse at
3 or more decks; then Zod-validate; then insert via `createDeckForUser`.
Note the order: the free-tier count query runs before validation. -/
def createDeck (s : Store) (auth : Option String) (hasUnlimitedDecks : Bool)
    (name : String) (description : Option String) (now : Nat) :
    Store × ActionResult Deck × List DbQuery :=
  match auth with
  | none => (s, ActionResult.err "You must be logged in to create decks", [])
  | some userId =>
    -- step 2 of the source: deck-limit check for free users
    let pre : List DbQuery :=
      if hasUnlimitedDecks then [] else [DbQuery.countDecks userId]
    if !hasUnlimitedDecks && 3 ≤ getUserDeckCount s userId then
      (s, ActionResult.err
        "Deck limit reached. Upgrade to Pro for unlimited decks.", pre)
    else
      -- step 3: Zod validation
      match createDeckValidationError name description with
      | some msg => (s, ActionResult.err msg, pre)
      | none =>
        -- step 4: mutation
        let (s', d) := createDeckForUser s userId name description now
        (s', ActionResult.ok d,
          pre ++ [DbQuery.insertDeck userId name description])

/-- The `updateDeckSchema`: positive `id` (Zod's default message for the
unnamed check, abbreviated to a stable string), then `name` 1..255 chars and
optional `description` ≤ 1000 chars, same messages as `createDeckSchema`;
fields are checked in declaration order. -/
def updateDeckValidationError (deckId : Nat) (name : String)
    (description : Option String) : Option String :=
  if deckId = 0 then some "Number must be greater than 0"
  else createDeckValidationError name description

/-- The server action `updateDeck` (deck actions file): authenticate,
Zod-validate, then `updateDeckForUser` (whose store accesses are the
ownership lookup and, on success, the update statement). The updated row
handed back by `returning()` is read back from the store. -/
def updateDeck (s : Store) (auth : Option String) (deckId : Nat)
    (name : String) (description : Option String) (now : Nat) :
    Store × ActionResult Unit × List DbQuery :=
  match auth with
  | none => (s, ActionResult.err "You must be logged in to update decks", [])
  | some userId =>
    match updateDeckValidationError deckId name description with
    | some msg => (s, ActionResult.err msg, [])
    | none =>
      match updateDeckForUser s deckId userId name description now with
      | Except.error msg =>
        (s, ActionResult.err msg, [DbQuery.getDeck deckId userId])
      | Except.ok s' =>
        (s', ActionResult.ok (),
          [DbQuery.getDeck deckId userId, DbQuery.setDeckRow deckId])

/-- The quota decision of the dashboard page
(`const canCreateMore = hasUnlimitedDecks || deckCount < 3;`), which is also
the complement of `createDeck`'s refusal condition. -/
def canCreateDeck (_userId : String) (currentDeckCount : Nat)
    (hasUnlimitedEntitlement : Bool) : Bool :=
  hasUnlimitedEntitlement || currentDeckCount < 3

/-- The `createCardSchema`: `deckId` positive, `front` and `back` 1..1000 chars;
first failing field's message in field order. -/
def createCardValidationError (deckId : Nat) (front back : String) :
    Option String :=
  if deckId = 0 then some "Deck ID is required"
  else if front.length < 1 then some "Question is required"
  else if front.length > 1000 then some "Question is too long"
  else if back.length < 1 then some "Answer is required"
  else if back.length > 1000 then some "Answer is too long"
  else none

/-- The server action `createCard` (card actions file): authenticate,
Zod-validate, then `createCardForDeck` (whose store accesses are the ownership
lookup and, on success, the insert). -/
def createCard (s : Store) (auth : Option String) (deckId : Nat)
    (front back : String) (now : Nat) :
    Store × ActionResult Card × List DbQuery :=
  match auth with
  | none => (s, ActionResult.err "You must be logged in to create cards", [])
  | some userId =>
    match createCardValidationError deckId front back with
    | some msg => (s, ActionResult.err msg, [])
    | none =>
      match createCardForDeck s deckId userId front back now with
      | Except.error msg =>
        (s, ActionResult.err msg, [DbQuery.getDeck deckId userId])
      | Except.ok (s', c) =>
        (s', ActionResult.ok c,
          [DbQuery.getDeck deckId userId,
           DbQuery.insertCard deckId front back])

/-- The `updateCardSchema`: positive `id` (message `Card ID is required`),
then `front` and `back` 1..1000 chars, same messages as `createCardSchema`;
fields are checked in declaration order. -/
def updateCardValidationError (cardId : Nat) (front back : String) :
    Option String :=
  if cardId = 0 then some "Card ID is required"
  else if front.length < 1 then some "Question is required"
  else if front.length > 1000 then some "Question is too long"
  else if back.length < 1 then some "Answer is required"
  else if back.length > 1000 then some "Answer is too long"
  else none

/-- The server action `updateCard` (card actions file): authenticate,
Zod-validate, then `updateCardForUser` (whose store accesses are the
transitive ownership lookup and, on success, the update statement). The
updated row handed back by `returning()` is read back from the store. -/
def updateCard (s : Store) (auth : Option String) (cardId : Nat)
    (front back : String) (now : Nat) :
    Store × ActionResult Unit × List DbQuery :=
  match auth with
  | none => (s, ActionResult.err "You must be logged in to update cards", [])
  | some userId =>
    match updateCardValidationError cardId front back with
    | some msg => (s, ActionResult.err msg, [])
    | none =>
      match updateCardForUser s cardId userId front back now with
      | Except.error msg =>
        (s, ActionResult.err msg, [DbQuery.getCard cardId userId])
      | Except.ok s' =>
        (s', ActionResult.ok (),
          [DbQuery.getCard cardId userId, DbQuery.setCardRow cardId])

/-- The server action `deleteCard` (card actions file): authenticate, validate
`id` positive, call `deleteCardForUser` — binding its void return to
`deleted` — then revalidate `/decks/${deleted.deckId}`. Since
`deleteCardForUser` returns nothing, that property access throws a
`TypeError`, which the catch-all converts to `{ success: false, error }`:
after a successful deletion the action reports failure (the deletion itself
has already happened). -/
def deleteCard (s : Store) (auth : Option String) (cardId : Nat) :
    Store × ActionResult Unit × List DbQuery :=
  match auth with
  | none => (s, ActionResult.err "You must be logged in to delete cards", [])
  | some userId =>
    if cardId = 0 then (s, ActionResult.err "Card ID is required", [])
    else
      match deleteCardForUser s cardId userId with
      | Except.error msg =>
        (s, ActionResult.err msg, [DbQuery.getCard cardId userId])
      | Except.ok s' =>
        -- `deleted` is undefined; `deleted.deckId` throws, the handler
        -- returns the TypeError message (quotes elided)
        (s', ActionResult.err
          "Cannot read properties of undefined (reading deckId)",
          [DbQuery.getCard cardId userId, DbQuery.deleteCardRow cardId])

/-! ## AI card generation (`generateCardsWithAI` server action) -/

/-- One element of the `cards` array of `flashcardSchema`
(`z.object({ front: z.string(), back: z.string() })`): the structural schema
enforced on the generation collaborator's output. It constrains `front` and
`back` to be strings and nothing else — no emptiness or length bound. -/
structure Candidate where
  front : String
  back : String
deriving Repr, DecidableEq

/-- Bulk insert of a list of candidates into a deck, consuming consecutive
identity values. -/
def insertCards (s : Store) (deckId : Nat) (cands : List Candidate)
    (now : Nat) : Store × List Card :=
  match cands with
  | [] => (s, [])
  | cand :: rest =>
    let r₁ := insertCard s deckId cand.front cand.back now
    let r₂ := insertCards r₁.1 deckId rest now
    (r₂.1, r₁.2 :: r₂.2)

/-- Modelled from the spec: `createCardsForDeck` is imported by the
`generateCardsWithAI` action from the card-queries module, but its definition
is not among the provided sources. Per the spec, `createCards(deckId, userId,
candidates)` is the batch variant with one ownership check on the deck and one
bulk insert, all-or-nothing, failing with NotFoundOrUnauthorized when the deck
is not owned; no per-candidate field validation is listed among its steps. -/
def createCardsForDeck (s : Store) (deckId : Nat) (userId : String)
    (cands : List Candidate) (now : Nat) : Except String (Store × List Card) :=
  match getDeckById s deckId userId with
  | none => Except.error "Deck not found or unauthorized"
  | some _ => Except.ok (insertCards s deckId cands now)

/-- The `generateCardsSchema`: `deckId` positive, `count` 1..20. Zod's default
messages for these unnamed checks are abbreviated to stable strings. -/
def generateCardsInputError (deckId : Nat) (count : Nat) : Option String :=
  if deckId = 0 then some "Number must be greater than 0"
  else if count < 1 then some "Number must be greater than or equal to 1"
  else if count > 20 then some "Number must be less than or equal to 20"
  else none

/-- JavaScript `String.prototype.trim()`: strip leading and trailing
whitespace. -/
def jsTrim (s : String) : String :=
  String.mk
    ((s.data.dropWhile Char.isWhitespace).reverse.dropWhile
      Char.isWhitespace).reverse

/-- The server action `generateCardsWithAI`: authenticate; require the
`ai_flashcard_generation` feature; Zod-validate the input; verify deck
ownership; require a non-blank deck description; call the external generator
(whose reply, already structurally constrained by `flashcardSchema`, enters
here as the `aiOutput` parameter); persist every returned candidate through
`createCardsForDeck` with no further validation. -/
def generateCardsWithAI (s : Store) (auth : Option String) (canUseAI : Bool)
    (deckId : Nat) (count : Nat) (aiOutput : List Candidate) (now : Nat) :
    Store × ActionResult (List Card) :=
  match auth with
  | none =>
    (s, ActionResult.err "You must be logged in to generate flashcards")
  | some userId =>
    if !canUseAI then
      (s, ActionResult.err
        "AI flashcard generation is only available for Pro subscribers.")
    else
      match generateCardsInputError deckId count with
      | some msg => (s, ActionResult.err msg)
      | none =>
        match getDeckById s deckId userId with
        | none => (s, ActionResult.err "Deck not found or unauthorized")
        | some deck =>
          let blank : Bool :=
            match deck.description with
            | none => true
            | some d => jsTrim d == ""
          if blank then
            (s, ActionResult.err
              "Please add a description to your deck first. AI needs context to generate relevant flashcards.")
          else
            match createCardsForDeck s deckId userId aiOutput now with
            | Except.error msg => (s, ActionResult.err msg)
            | Except.ok (s', cards) => (s', ActionResult.ok cards)

/-! ## Study session engine (`FlashcardStudy` client component)

React state: `currentIndex`, `isFlipped`, `studyCards` (current order),
`isShuffled`, `correctCount`, `incorrectCount`, plus the immutable `cards`
prop (the snapshot loaded once from the repository). The `useEffect` that
resets `isFlipped` fires exactly when `currentIndex` changes, so a transition
that does not move the index leaves `isFlipped` as it is. `handleShuffle`
computes `[...studyCards].sort(() => Math.random() - 0.5)` — some permutation
of the current `studyCards` list (a comparison sort always returns a
permutation of its input; the random comparator only makes the choice of
permutation arbitrary), carried here as the event's payload. -/

/-- The state of one study session: the snapshot prop plus the six `useState`
cells of `FlashcardStudy`. -/
structure StudySession where
  cards : List Card
  studyCards : List Card
  currentIndex : Nat
  isFlipped : Bool
  isShuffled : Bool
  correctCount : Nat
  incorrectCount : Nat
deriving Repr, DecidableEq

/-- Initial state: `studyCards` is the snapshot as loaded, index 0, not
flipped, counters 0. -/
def initSession (cards : List Card) : StudySession :=
  { cards := cards, studyCards := cards, currentIndex := 0,
    isFlipped := false, isShuffled := false,
    correctCount := 0, incorrectCount := 0 }

/-- The user events the component handles. `shuffle` carries the permutation
the random comparison sort produced. -/
inductive StudyEvent where
  | flip
  | next
  | previous
  | shuffle (result : List Card)
  | restart
  | markCorrect
  | markIncorrect
deriving Repr, DecidableEq

/-- The `handleNext`: advance if not at the last card (the index change makes the
`useEffect` clear `isFlipped`); no wraparound. -/
def nextStep (s : StudySession) : StudySession :=
  if s.currentIndex < s.studyCards.length - 1 then
    { s with currentIndex := s.currentIndex + 1, isFlipped := false }
  else s

/-- The `handlePrevious`: step back if not at the first card. -/
def prevStep (s : StudySession) : StudySession :=
  if 0 < s.currentIndex then
    { s with currentIndex := s.currentIndex - 1, isFlipped := false }
  else s

/-- The `handleCorrect`: increment `correctCount`, then auto-advance exactly like
`handleNext` (at the last card the index — and hence `isFlipped` — stays). -/
def markCorrectStep (s : StudySession) : StudySession :=
  nextStep { s with correctCount := s.correctCount + 1 }

/-- The `handleIncorrect`: increment `incorrectCount`, then auto-advance. -/
def markIncorrectStep (s : StudySession) : StudySession :=
  nextStep { s with incorrectCount := s.incorrectCount + 1 }

/-- The `handleShuffle` with the sort's output `result`: replace `studyCards`,
reset index, flip state and both counters, mark the session shuffled. -/
def shuffleStep (s : StudySession) (result : List Card) : StudySession :=
  { s with
    studyCards := result
    currentIndex := 0
    isFlipped := false
    isShuffled := true
    correctCount := 0
    incorrectCount := 0 }

/-- The `handleRestart`: back to the snapshot order, everything reset. -/
def restartStep (s : StudySession) : StudySession :=
  { s with
    studyCards := s.cards
    currentIndex := 0
    isFlipped := false
    isShuffled := false
    correctCount := 0
    incorrectCount := 0 }

/-- One transition of the state machine. -/
def step (s : StudySession) : StudyEvent → StudySession
  | StudyEvent.flip => { s with isFlipped := !s.isFlipped }
  | StudyEvent.next => nextStep s
  | StudyEvent.previous => prevStep s
  | StudyEvent.shuffle result => shuffleStep s result
  | StudyEvent.restart => restartStep s
  | StudyEvent.markCorrect => markCorrectStep s
  | StudyEvent.markIncorrect => markIncorrectStep s

/-- Which events the component can actually emit from state `s`: a `shuffle`
payload is constrained to be a permutation of the current `studyCards` (that
is all the random comparison sort can produce); every other event is always
available. -/
def ValidEvent (s : StudySession) : StudyEvent → Prop
  | StudyEvent.shuffle result => result.Perm s.studyCards
  | _ => True

/-- States the session can be in after any sequence of component transitions
from the initial state over snapshot `cards`. -/
inductive Reachable (cards : List Card) : StudySession → Prop
  | init : Reachable cards (initSession cards)
  | step {s : StudySession} {e : StudyEvent} :
      Reachable cards s → ValidEvent s e → Reachable cards (step s e)

/-- Run a whole event sequence from the initial state. -/
def runSession (cards : List Card) (events : List StudyEvent) : StudySession :=
  events.foldl step (initSession cards)

/-- Number of `markCorrect` / `markIncorrect` events in a sequence. -/
def countMarkEvents (events : List StudyEvent) : Nat :=
  (events.filter (fun e =>
    e matches StudyEvent.markCorrect || e matches StudyEvent.markIncorrect)).length

/-! ## Concrete fixtures used by witnesses and counterexamples -/

/-- A deck owned by user `u1`. -/
def deckA : Deck :=
  { id := 10, userId := "u1", name := "French",
    description := some "Basic vocabulary", createdAt := 1, updatedAt := 2 }

/-- A card of `deckA`. -/
def cardA : Card :=
  { id := 1, deckId := 10, front := "Dog", back := "Chien",
    createdAt := 1, updatedAt := 1 }

/-- A store holding `deckA` with its single card `cardA`. -/
def storeA : Store :=
  { decks := [deckA], cards := [cardA], nextDeckId := 11, nextCardId := 2 }

/-- The `storeA` after `deleteDeckForUser 10 "u1"`: deck and card gone. -/
def storeAfterDeckDelete : Store :=
  { decks := [], cards := [], nextDeckId := 11, nextCardId := 2 }

/-- A store with no rows at all. -/
def emptyStore : Store :=
  { decks := [], cards := [], nextDeckId := 1, nextCardId := 1 }

/-- A second card, for three-card study sessions. -/
def cardB : Card :=
  { id := 2, deckId := 10, front := "Cat", back := "Chat",
    createdAt := 1, updatedAt := 1 }

/-- A third card, for three-card study sessions. -/
def cardC : Card :=
  { id := 3, deckId := 10, front := "Bird", back := "Oiseau",
    createdAt := 1, updatedAt := 1 }

/-- A one-card session after `flip, markCorrect, markCorrect`: the user
reveals the only card, marks it, stays on it (no further card to advance to,
so the card remains revealed) and marks it again. -/
def remarkedSession : StudySession :=
  step (step (step (initSession [cardA]) StudyEvent.flip)
    StudyEvent.markCorrect) StudyEvent.markCorrect

/-- The `deckA` after `updateDeckForUser` with name `German`, description
`Nouns` at instant 5: content fields overwritten, identity fields kept. -/
def deckAUpdated : Deck :=
  { id := 10, userId := "u1", name := "German",
    description := some "Nouns", createdAt := 1, updatedAt := 5 }

/-- The `storeA` after that deck update. -/
def storeAUpdated : Store :=
  { decks := [deckAUpdated], cards := [cardA], nextDeckId := 11,
    nextCardId := 2 }

/-! ## Theorems -/

/-- C1: `getDeckById(deckId, userId)` is present exactly when a deck with id
`deckId` exists whose `userId` equals the caller, and the returned deck is that
row; otherwise it is `none`. The operation is a total function into
`Option Deck` — it never throws — so a missing deck and another user's deck
are both reported as the same `none`. -/
theorem getDeckById_present_iff (s : Store) (deckId : Nat) (userId : String) :
    ((getDeckById s deckId userId).isSome ↔
      ∃ d ∈ s.decks, d.id = deckId ∧ d.userId = userId) ∧
    (∀ d, getDeckById s deckId userId = some d →
      d ∈ s.decks ∧ d.id = deckId ∧ d.userId = userId) := by
  constructor
  · rw [getDeckById, List.find?_isSome]
    constructor
    · rintro ⟨d, hd, hp⟩
      simp only [Bool.and_eq_true, beq_iff_eq] at hp
      exact ⟨d, hd, hp.1, hp.2⟩
    · rintro ⟨d, hd, h1, h2⟩
      exact ⟨d, hd, by simp [h1, h2]⟩
  · intro d h
    have hm := List.mem_of_find?_eq_some h
    have hp := List.find?_some h
    simp only [Bool.and_eq_true, beq_iff_eq] at hp
    exact ⟨hm, hp.1, hp.2⟩

/-- C1 witness: applied to `storeA`, deck 10 and user `u1`, the read returns
exactly the stored row `deckA`. -/
theorem getDeckById_present_iff_witness :
    deckA ∈ storeA.decks ∧ deckA.id = 10 ∧ deckA.userId = "u1" :=
  (getDeckById_present_iff storeA 10 "u1").2 deckA rfl

/-- C2: when `deleteDeckForUser` succeeds for an owner, the cascade removes
every card of the deck together with it: no card with that `deckId` remains in
the store, `getDeckCards` for that deck is absent for every user, and no card
retrievable by any user (via `getCardById`) belongs to the deleted deck. -/
theorem deleteDeckForUser_cascades (s s' : Store) (deckId : Nat)
    (userId : String)
    (h : deleteDeckForUser s deckId userId = Except.ok s') :
    (∀ c ∈ s'.cards, c.deckId ≠ deckId) ∧
    (∀ u, getDeckCards s' deckId u = none) ∧
    (∀ u cid c, getCardById s' cid u = some c → c.deckId ≠ deckId) := by
  rw [deleteDeckForUser] at h
  cases hd : getDeckById s deckId userId with
  | none => rw [hd] at h; exact absurd h (by simp)
  | some d0 =>
    rw [hd] at h
    have hs' : s' =
        { s with
          decks := s.decks.filter (fun d => d.id != deckId),
          cards := s.cards.filter (fun c => c.deckId != deckId) } := by
      cases h; rfl
    subst hs'
    refine ⟨?_, ?_, ?_⟩
    · intro c hc
      have := List.of_mem_filter hc
      simpa using this
    · intro u
      rw [getDeckCards]
      have hnone : getDeckById
          { s with
            decks := s.decks.filter (fun d => d.id != deckId),
            cards := s.cards.filter (fun c => c.deckId != deckId) }
          deckId u = none := by
        rw [getDeckById, List.find?_eq_none]
        intro d hd'
        have := List.of_mem_filter hd'
        simp only [bne_iff_ne, ne_eq] at this
        simp [this]
      rw [hnone]
    · intro u cid c hc
      rw [getCardById] at hc
      cases hf : List.find? (fun c => c.id == cid)
          (s.cards.filter (fun c => c.deckId != deckId)) with
      | none => rw [hf] at hc; exact absurd hc (by simp)
      | some c1 =>
        rw [hf] at hc
        dsimp only at hc
        have hmem := List.mem_of_find?_eq_some hf
        have hpred := List.of_mem_filter hmem
        simp only [bne_iff_ne, ne_eq] at hpred
        cases hg : List.find?
            (fun d => d.id == c1.deckId && d.userId == u)
            (s.decks.filter (fun d => d.id != deckId)) with
        | none => rw [hg] at hc; exact absurd hc (by simp)
        | some d1 =>
          rw [hg] at hc
          cases hc
          exact hpred

/-- C2 witness: deleting deck 10 from `storeA` empties both tables; afterwards
`getDeckCards 10` is absent (shown for user `u2`). -/
theorem deleteDeckForUser_cascades_witness :
    getDeckCards storeAfterDeckDelete 10 "u2" = none :=
  (deleteDeckForUser_cascades storeA storeAfterDeckDelete 10 "u1" rfl).2.1 "u2"

/-- C3 (code bug, evaluated at the failing input): card 1 of `storeA` is owned
by `u1` via deck 10, and `deleteCard` does delete it — yet the action returns
`{ success: false }`, because after the deletion it reads `deleted.deckId`
from the void return value of `deleteCardForUser` and the resulting
`TypeError` is converted to an error result. The claimed behaviour (void
success for every owned card) does not hold for any owned card. -/
theorem deleteCard_owned_card_reports_failure :
    getCardById storeA 1 "u1" = some cardA ∧
    deleteCard storeA (some "u1") 1 =
      ({ storeA with cards := [] },
       ActionResult.err "Cannot read properties of undefined (reading deckId)",
       [DbQuery.getCard 1 "u1", DbQuery.deleteCardRow 1]) :=
  ⟨rfl, rfl⟩

/-- C4 counterexample: `createDeck` for a signed-in non-entitled user with the
malformed name `""` returns the validation error, but its store-query trace
already contains the deck-count query — validation did not happen before the
store was touched. -/
theorem createDeck_invalid_name_still_counts :
    (createDeck emptyStore (some "u1") false "" none 0).2.1 =
      ActionResult.err "Deck name is required" ∧
    (createDeck emptyStore (some "u1") false "" none 0).2.2 =
      [DbQuery.countDecks "u1"] :=
  ⟨rfl, rfl⟩

/-- C4 as amended: every write operation except `createDeck` validates its
fields before any store access — `createCard`, `updateCard`, `deleteCard` and
`updateDeck` on malformed input return the validation error with an untouched
store and an empty query trace. `createDeck` instead runs the free-tier quota
check first: on malformed input it still returns a `ValidationError` and
performs no insert, yet for a non-entitled user (not already over quota) the
deck-count query has already run by then; only for entitled users does no
store access precede validation. -/
theorem validation_before_store_access (s : Store) (userId : String)
    (hasUnlimited : Bool) (deckId cardId : Nat) (name front back : String)
    (description : Option String) (now : Nat) :
    (∀ msg, createCardValidationError deckId front back = some msg →
      createCard s (some userId) deckId front back now =
        (s, ActionResult.err msg, [])) ∧
    (∀ msg, updateCardValidationError cardId front back = some msg →
      updateCard s (some userId) cardId front back now =
        (s, ActionResult.err msg, [])) ∧
    (cardId = 0 →
      deleteCard s (some userId) cardId =
        (s, ActionResult.err "Card ID is required", [])) ∧
    (∀ msg, updateDeckValidationError deckId name description = some msg →
      updateDeck s (some userId) deckId name description now =
        (s, ActionResult.err msg, [])) ∧
    (∀ msg, createDeckValidationError name description = some msg →
      ¬ (hasUnlimited = false ∧ 3 ≤ getUserDeckCount s userId) →
      createDeck s (some userId) hasUnlimited name description now =
        (s, ActionResult.err msg,
          if hasUnlimited then [] else [DbQuery.countDecks userId])) := by
  refine ⟨?_, ?_, ?_, ?_, ?_⟩
  · intro msg hmsg
    rw [createCard, hmsg]
  · intro msg hmsg
    rw [updateCard, hmsg]
  · intro h0
    rw [deleteCard]
    simp [h0]
  · intro msg hmsg
    rw [updateDeck, hmsg]
  · intro msg hmsg hnq
    rw [createDeck]
    have hcond : (!hasUnlimited && decide (3 ≤ getUserDeckCount s userId)) = false := by
      cases hasUnlimited with
      | true => rfl
      | false =>
        simp only [Bool.not_false, Bool.true_and, decide_eq_false_iff_not]
        intro hle
        exact hnq ⟨rfl, hle⟩
    rw [hcond]
    simp only [Bool.false_eq_true, if_false, hmsg]

/-- C4 amended witness: creating a card with an empty question in `storeA`
fails validation with no store query executed. -/
theorem validation_before_store_access_witness :
    createCard storeA (some "u1") 10 "" "1066" 0 =
      (storeA, ActionResult.err "Question is required", []) :=
  (validation_before_store_access storeA "u1" false 10 1 "x" "" "1066"
    none 0).1 "Question is required" rfl

/-- The Zod messages of `createDeckSchema` are distinct from the deck-limit
message, so a quota refusal is identifiable by its error string. -/
theorem createDeckValidationError_ne_quota (name : String)
    (description : Option String) (msg : String)
    (h : createDeckValidationError name description = some msg) :
    msg ≠ "Deck limit reached. Upgrade to Pro for unlimited decks." := by
  unfold createDeckValidationError at h
  split at h
  · cases h; decide
  · split at h
    · cases h; decide
    · match description, h with
      | some d, h =>
        dsimp only at h
        split at h
        · cases h; decide
        · exact absurd h (by simp)

/-- C5: the quota decision is `hasUnlimitedEntitlement ∨ currentDeckCount < 3`
(strict inequality, fixed cap 3), and it is exactly the complement of the
condition under which the `createDeck` action refuses with the deck-limit
error for a signed-in user. -/
theorem canCreateDeck_spec (u : String) (n : Nat) (e : Bool) (s : Store)
    (name : String) (description : Option String) (now : Nat) :
    (canCreateDeck u n e = true ↔ (e = true ∨ n < 3)) ∧
    ((createDeck s (some u) e name description now).2.1 =
        ActionResult.err
          "Deck limit reached. Upgrade to Pro for unlimited decks." ↔
      canCreateDeck u (getUserDeckCount s u) e = false) := by
  constructor
  · simp [canCreateDeck]
  · rw [createDeck]
    cases hc : (!e && decide (3 ≤ getUserDeckCount s u)) with
    | true =>
      have hc' := hc
      simp only [Bool.and_eq_true] at hc'
      obtain ⟨h1, h2⟩ := hc'
      have he : e = false := by
        cases e
        · rfl
        · exact absurd h1 (by decide)
      have hge : 3 ≤ getUserDeckCount s u := of_decide_eq_true h2
      simp only [if_true]
      constructor
      · intro _
        simp [canCreateDeck, he, Nat.not_lt.mpr hge]
      · intro _
        trivial
    | false =>
      have hcan : canCreateDeck u (getUserDeckCount s u) e = true := by
        cases e with
        | true => simp [canCreateDeck]
        | false =>
          simp only [Bool.not_false, Bool.true_and] at hc
          have := of_decide_eq_false hc
          simp [canCreateDeck, Nat.lt_of_not_le this]
      simp only [Bool.false_eq_true, if_false]
      constructor
      · intro h
        exfalso
        cases hv : createDeckValidationError name description with
        | none =>
          rw [hv] at h
          dsimp only at h
          exact absurd h (by simp)
        | some msg =>
          rw [hv] at h
          dsimp only at h
          have : msg = "Deck limit reached. Upgrade to Pro for unlimited decks." := by
            cases h
            rfl
          exact createDeckValidationError_ne_quota name description msg hv this
      · intro h
        rw [hcan] at h
        exact absurd h (by decide)

/-- C5 witness: the quota instances of the spec — 2 decks without entitlement
may create, 3 may not: the decision is true at (2, no entitlement) and the
`createDeck` refusal never fires exactly per the decision. -/
theorem canCreateDeck_spec_witness :
    canCreateDeck "u1" 2 false = true :=
  ((canCreateDeck_spec "u1" 2 false emptyStore "x" none 0).1).mpr
    (Or.inr (by decide))

/-- What the bulk insert does: decks and the deck identity sequence are
untouched, the new cards are appended in candidate order with consecutive
identity values, and each persisted card carries its candidate's `front` and
`back` verbatim into the target deck. -/
theorem insertCards_spec (deckId : Nat) (now : Nat) :
    ∀ (cands : List Candidate) (s : Store),
      (insertCards s deckId cands now).1.decks = s.decks ∧
      (insertCards s deckId cands now).1.nextDeckId = s.nextDeckId ∧
      (insertCards s deckId cands now).1.cards =
        s.cards ++ (insertCards s deckId cands now).2 ∧
      (insertCards s deckId cands now).1.nextCardId =
        s.nextCardId + cands.length ∧
      List.Forall₂
        (fun cand c => c.front = cand.front ∧ c.back = cand.back ∧
          c.deckId = deckId) cands (insertCards s deckId cands now).2 := by
  intro cands
  induction cands with
  | nil =>
    intro s
    refine ⟨rfl, rfl, by simp [insertCards], rfl, ?_⟩
    simp [insertCards]
  | cons cand rest ih =>
    intro s
    obtain ⟨ih1, ih2, ih3, ih4, ih5⟩ :=
      ih (insertCard s deckId cand.front cand.back now).1
    refine ⟨ih1, ih2, ?_, ?_, ?_⟩
    · show (insertCards (insertCard s deckId cand.front cand.back now).1
          deckId rest now).1.cards = s.cards ++
          ((insertCard s deckId cand.front cand.back now).2 ::
            (insertCards (insertCard s deckId cand.front cand.back now).1
              deckId rest now).2)
      rw [ih3]
      simp [insertCard]
    · show (insertCards (insertCard s deckId cand.front cand.back now).1
          deckId rest now).1.nextCardId = s.nextCardId + (rest.length + 1)
      rw [ih4]
      show s.nextCardId + 1 + rest.length = _
      omega
    · show List.Forall₂ _ (cand :: rest)
        ((insertCard s deckId cand.front cand.back now).2 ::
          (insertCards (insertCard s deckId cand.front cand.back now).1
            deckId rest now).2)
      exact List.Forall₂.cons ⟨rfl, rfl, rfl⟩ ih5

/-- C7: the batch creation `createCardsForDeck` performs one ownership check
— it fails with the NotFoundOrUnauthorized error exactly when the deck is not
owned — and one bulk insert that is all-or-nothing: on success the new store
is the old one with every candidate appended as a card of the deck (in order,
fronts and backs verbatim, decks untouched), and on failure no store is
produced, so nothing is persisted; no partial prefix of the batch can
survive. -/
theorem createCardsForDeck_spec (s : Store) (deckId : Nat) (userId : String)
    (cands : List Candidate) (now : Nat) :
    (createCardsForDeck s deckId userId cands now =
        Except.error "Deck not found or unauthorized" ↔
      getDeckById s deckId userId = none) ∧
    (∀ s' cards,
      createCardsForDeck s deckId userId cands now = Except.ok (s', cards) →
      s'.decks = s.decks ∧ s'.cards = s.cards ++ cards ∧
      cards.length = cands.length ∧
      List.Forall₂
        (fun cand c => c.front = cand.front ∧ c.back = cand.back ∧
          c.deckId = deckId) cands cards) := by
  constructor
  · rw [createCardsForDeck]
    cases hd : getDeckById s deckId userId with
    | none => simp
    | some d => simp
  · intro s' cards h
    rw [createCardsForDeck] at h
    cases hd : getDeckById s deckId userId with
    | none => rw [hd] at h; exact absurd h (by simp)
    | some d =>
      rw [hd] at h
      have hpair : insertCards s deckId cands now = (s', cards) := by
        injection h
      have h1 : (insertCards s deckId cands now).1 = s' := by rw [hpair]
      have h2 : (insertCards s deckId cands now).2 = cards := by rw [hpair]
      obtain ⟨i1, _, i3, _, i5⟩ := insertCards_spec deckId now cands s
      subst h1
      subst h2
      exact ⟨i1, i3, (List.Forall₂.length_eq i5).symm, i5⟩

/-- C7 witness: a two-candidate batch into `storeA`'s deck 10 succeeds as a
whole: both cards are persisted, fronts and backs carried over verbatim. -/
theorem createCardsForDeck_spec_witness :
    List.Forall₂
      (fun (cand : Candidate) (c : Card) =>
        c.front = cand.front ∧ c.back = cand.back ∧ c.deckId = 10)
      ([{ front := "Cat", back := "Chat" },
        { front := "Bird", back := "Oiseau" }] : List Candidate)
      ([{ id := 2, deckId := 10, front := "Cat", back := "Chat",
          createdAt := 9, updatedAt := 9 },
        { id := 3, deckId := 10, front := "Bird", back := "Oiseau",
          createdAt := 9, updatedAt := 9 }] : List Card) :=
  ((createCardsForDeck_spec storeA 10 "u1"
    [{ front := "Cat", back := "Chat" }, { front := "Bird", back := "Oiseau" }]
    9).2
    { storeA with
      cards := storeA.cards ++
        [{ id := 2, deckId := 10, front := "Cat", back := "Chat",
           createdAt := 9, updatedAt := 9 },
         { id := 3, deckId := 10, front := "Bird", back := "Oiseau",
           createdAt := 9, updatedAt := 9 }]
      nextCardId := 4 }
    [{ id := 2, deckId := 10, front := "Cat", back := "Chat",
       createdAt := 9, updatedAt := 9 },
     { id := 3, deckId := 10, front := "Bird", back := "Oiseau",
       createdAt := 9, updatedAt := 9 }]
    rfl).2.2.2

/-- C6 counterexample: the candidate `{front: "", back: "1066"}` fails the
manual-card validation (`createCardSchema` requires a non-empty front), yet
`generateCardsWithAI` persists it and reports success — generated candidates
are not subjected to the front/back field-length validation before
persistence. -/
theorem generated_invalid_card_persisted :
    createCardValidationError 10 "" "1066" = some "Question is required" ∧
    generateCardsWithAI storeA (some "u1") true 10 20
        [{ front := "", back := "1066" }] 7 =
      ({ storeA with
          cards := storeA.cards ++
            [{ id := 2, deckId := 10, front := "", back := "1066",
               createdAt := 7, updatedAt := 7 }]
          nextCardId := 3 },
       ActionResult.ok
         [{ id := 2, deckId := 10, front := "", back := "1066",
            createdAt := 7, updatedAt := 7 }]) :=
  ⟨rfl, rfl⟩

/-- C6 as amended: generated candidates are validated only structurally — the
`flashcardSchema` type `{front: string, back: string}` — and no field-length
or emptiness check is applied before persistence: whenever the action reaches
the persistence step (signed in, Pro feature, valid input, owned deck with a
non-blank description), every candidate is persisted verbatim as a card of
the deck and the action reports success, regardless of whether the candidate
would pass the manual-card validation. -/
theorem generateCards_persists_unvalidated (s : Store) (userId : String)
    (deckId count : Nat) (cands : List Candidate) (now : Nat) (deck : Deck)
    (d : String)
    (hin : generateCardsInputError deckId count = none)
    (hdeck : getDeckById s deckId userId = some deck)
    (hdesc : deck.description = some d)
    (hblank : (jsTrim d == "") = false) :
    ∃ cards,
      generateCardsWithAI s (some userId) true deckId count cands now =
        ((insertCards s deckId cands now).1, ActionResult.ok cards) ∧
      cards.length = cands.length ∧
      (insertCards s deckId cands now).1.cards = s.cards ++ cards ∧
      List.Forall₂
        (fun cand c => c.front = cand.front ∧ c.back = cand.back ∧
          c.deckId = deckId) cands cards := by
  obtain ⟨_, _, i3, _, i5⟩ := insertCards_spec deckId now cands s
  refine ⟨(insertCards s deckId cands now).2, ?_,
    (List.Forall₂.length_eq i5).symm, i3, i5⟩
  rw [generateCardsWithAI]
  simp only [Bool.not_true, Bool.false_eq_true, if_false, hin, hdeck, hdesc,
    hblank, createCardsForDeck]

/-- C6 amended witness: a candidate with an empty back — invalid as a manual
card — is still persisted by the generation flow in `storeA`. -/
theorem generateCards_persists_unvalidated_witness :
    ∃ cards,
      generateCardsWithAI storeA (some "u1") true 10 20
          [{ front := "Q", back := "" }] 7 =
        ((insertCards storeA 10 [{ front := "Q", back := "" }] 7).1,
         ActionResult.ok cards) ∧
      cards.length = ([{ front := "Q", back := "" }] : List Candidate).length ∧
      (insertCards storeA 10 [{ front := "Q", back := "" }] 7).1.cards =
        storeA.cards ++ cards ∧
      List.Forall₂
        (fun (cand : Candidate) (c : Card) =>
          c.front = cand.front ∧ c.back = cand.back ∧ c.deckId = 10)
        ([{ front := "Q", back := "" }] : List Candidate) cards :=
  generateCards_persists_unvalidated storeA "u1" 10 20
    [{ front := "Q", back := "" }] 7 deckA "Basic vocabulary" rfl rfl rfl rfl

/-- Advancing (plain or as the tail of a mark) never changes the counters. -/
theorem nextStep_counts (s : StudySession) :
    (nextStep s).correctCount = s.correctCount ∧
    (nextStep s).incorrectCount = s.incorrectCount := by
  rw [nextStep]
  split <;> exact ⟨rfl, rfl⟩

/-- Stepping back never changes the counters. -/
theorem prevStep_counts (s : StudySession) :
    (prevStep s).correctCount = s.correctCount ∧
    (prevStep s).incorrectCount = s.incorrectCount := by
  rw [prevStep]
  split <;> exact ⟨rfl, rfl⟩

/-- Along any event sequence, the counters grow by at most the number of mark
events: a fold-level bound from an arbitrary start state. -/
theorem foldl_counts_le (events : List StudyEvent) :
    ∀ s : StudySession,
      (events.foldl step s).correctCount +
          (events.foldl step s).incorrectCount ≤
        s.correctCount + s.incorrectCount + countMarkEvents events := by
  induction events with
  | nil =>
    intro s
    simp [countMarkEvents]
  | cons e rest ih =>
    intro s
    have h := ih (step s e)
    cases e with
    | flip =>
      have hcnt : countMarkEvents (StudyEvent.flip :: rest) =
          countMarkEvents rest := rfl
      rw [List.foldl_cons, hcnt]
      exact h
    | next =>
      have hcnt : countMarkEvents (StudyEvent.next :: rest) =
          countMarkEvents rest := rfl
      rw [List.foldl_cons, hcnt]
      obtain ⟨h1, h2⟩ := nextStep_counts s
      calc (rest.foldl step (step s StudyEvent.next)).correctCount +
            (rest.foldl step (step s StudyEvent.next)).incorrectCount ≤
          (step s StudyEvent.next).correctCount +
            (step s StudyEvent.next).incorrectCount +
            countMarkEvents rest := h
        _ = s.correctCount + s.incorrectCount + countMarkEvents rest := by
            show (nextStep s).correctCount + (nextStep s).incorrectCount +
              countMarkEvents rest = _
            rw [h1, h2]
    | previous =>
      have hcnt : countMarkEvents (StudyEvent.previous :: rest) =
          countMarkEvents rest := rfl
      rw [List.foldl_cons, hcnt]
      obtain ⟨h1, h2⟩ := prevStep_counts s
      calc (rest.foldl step (step s StudyEvent.previous)).correctCount +
            (rest.foldl step (step s StudyEvent.previous)).incorrectCount ≤
          (step s StudyEvent.previous).correctCount +
            (step s StudyEvent.previous).incorrectCount +
            countMarkEvents rest := h
        _ = s.correctCount + s.incorrectCount + countMarkEvents rest := by
            show (prevStep s).correctCount + (prevStep s).incorrectCount +
              countMarkEvents rest = _
            rw [h1, h2]
    | shuffle r =>
      have hcnt : countMarkEvents (StudyEvent.shuffle r :: rest) =
          countMarkEvents rest := rfl
      rw [List.foldl_cons, hcnt]
      refine le_trans h ?_
      show 0 + 0 + countMarkEvents rest ≤ _
      omega
    | restart =>
      have hcnt : countMarkEvents (StudyEvent.restart :: rest) =
          countMarkEvents rest := rfl
      rw [List.foldl_cons, hcnt]
      refine le_trans h ?_
      show 0 + 0 + countMarkEvents rest ≤ _
      omega
    | markCorrect =>
      have hcnt : countMarkEvents (StudyEvent.markCorrect :: rest) =
          countMarkEvents rest + 1 := rfl
      rw [List.foldl_cons, hcnt]
      refine le_trans h ?_
      obtain ⟨h1, h2⟩ := nextStep_counts
        { s with correctCount := s.correctCount + 1 }
      show (nextStep { s with correctCount := s.correctCount + 1 }).correctCount +
        (nextStep { s with correctCount := s.correctCount + 1 }).incorrectCount +
        countMarkEvents rest ≤ _
      rw [h1, h2]
      show s.correctCount + 1 + s.incorrectCount + countMarkEvents rest ≤ _
      omega
    | markIncorrect =>
      have hcnt : countMarkEvents (StudyEvent.markIncorrect :: rest) =
          countMarkEvents rest + 1 := rfl
      rw [List.foldl_cons, hcnt]
      refine le_trans h ?_
      obtain ⟨h1, h2⟩ := nextStep_counts
        { s with incorrectCount := s.incorrectCount + 1 }
      show (nextStep { s with incorrectCount := s.incorrectCount + 1 }).correctCount +
        (nextStep { s with incorrectCount := s.incorrectCount + 1 }).incorrectCount +
        countMarkEvents rest ≤ _
      rw [h1, h2]
      show s.correctCount + (s.incorrectCount + 1) + countMarkEvents rest ≤ _
      omega

/-- C8 counterexample: over the one-card snapshot `[cardA]`, the reachable
event sequence `flip, markCorrect, markCorrect` (the buttons stay visible
because the last card stays revealed after a mark that cannot advance) drives
`correct + incorrect` to 2 while `length(order)` is 1 — the claimed invariant
`correct + incorrect ≤ length(order)` fails in a reachable state. -/
theorem remark_breaks_count_invariant :
    Reachable [cardA] remarkedSession ∧
    remarkedSession.correctCount + remarkedSession.incorrectCount = 2 ∧
    remarkedSession.studyCards.length = 1 := by
  refine ⟨?_, rfl, rfl⟩
  exact Reachable.step
    (Reachable.step (Reachable.step Reachable.init trivial) trivial) trivial

/-- C8 as amended: the counters are bounded by the number of mark transitions
performed, not by the number of cards: for every snapshot and every event
sequence, `correct + incorrect ≤ countMarkEvents events` after running the
sequence; re-marking (at the clamped last position, or after navigating back)
can therefore push `correct + incorrect` beyond `length(order)`. -/
theorem counters_bounded_by_marks (cards : List Card)
    (events : List StudyEvent) :
    (runSession cards events).correctCount +
        (runSession cards events).incorrectCount ≤
      countMarkEvents events := by
  have h := foldl_counts_le events (initSession cards)
  simpa [runSession, initSession] using h

/-- C8 amended witness: the double-mark run on one card stays within its mark
count (2 marks, counters sum to 2). -/
theorem counters_bounded_by_marks_witness :
    (runSession [cardA] [StudyEvent.flip, StudyEvent.markCorrect,
        StudyEvent.markCorrect]).correctCount +
      (runSession [cardA] [StudyEvent.flip, StudyEvent.markCorrect,
        StudyEvent.markCorrect]).incorrectCount ≤
      countMarkEvents [StudyEvent.flip, StudyEvent.markCorrect,
        StudyEvent.markCorrect] :=
  counters_bounded_by_marks [cardA]
    [StudyEvent.flip, StudyEvent.markCorrect, StudyEvent.markCorrect]

/-- Every reachable session keeps its snapshot prop intact and its current
order a permutation of the snapshot (`shuffle` permutes the current order,
`restart` restores the snapshot, nothing else touches the order). -/
theorem reachable_perm (cards : List Card) (s : StudySession)
    (h : Reachable cards s) :
    s.cards = cards ∧ s.studyCards.Perm cards := by
  induction h with
  | init => exact ⟨rfl, List.Perm.refl _⟩
  | @step s e _ hv ih =>
    cases e with
    | flip => exact ih
    | next =>
      constructor
      · show (nextStep s).cards = cards
        rw [nextStep]
        split
        · exact ih.1
        · exact ih.1
      · show (nextStep s).studyCards.Perm cards
        rw [nextStep]
        split
        · exact ih.2
        · exact ih.2
    | previous =>
      constructor
      · show (prevStep s).cards = cards
        rw [prevStep]
        split
        · exact ih.1
        · exact ih.1
      · show (prevStep s).studyCards.Perm cards
        rw [prevStep]
        split
        · exact ih.2
        · exact ih.2
    | shuffle r =>
      refine ⟨ih.1, ?_⟩
      have hperm : r.Perm s.studyCards := hv
      exact hperm.trans ih.2
    | restart =>
      refine ⟨ih.1, ?_⟩
      show s.cards.Perm cards
      rw [ih.1]
    | markCorrect =>
      constructor
      · show (nextStep { s with correctCount := s.correctCount + 1 }).cards = cards
        rw [nextStep]
        split
        · exact ih.1
        · exact ih.1
      · show (nextStep { s with correctCount := s.correctCount + 1 }).studyCards.Perm cards
        rw [nextStep]
        split
        · exact ih.2
        · exact ih.2
    | markIncorrect =>
      constructor
      · show (nextStep { s with incorrectCount := s.incorrectCount + 1 }).cards = cards
        rw [nextStep]
        split
        · exact ih.1
        · exact ih.1
      · show (nextStep { s with incorrectCount := s.incorrectCount + 1 }).studyCards.Perm cards
        rw [nextStep]
        split
        · exact ih.2
        · exact ih.2

/-- C9: from any reachable session state, a `shuffle` — whose payload is some
permutation of the current, possibly already re-ordered `studyCards` — yields
an order whose elements are exactly the full original snapshot's cards, with
position 0, nothing revealed, and both counters 0. -/
theorem shuffle_permutes_snapshot (cards result : List Card)
    (s : StudySession) (h : Reachable cards s)
    (hres : result.Perm s.studyCards) :
    (step s (StudyEvent.shuffle result)).studyCards.Perm cards ∧
    (step s (StudyEvent.shuffle result)).currentIndex = 0 ∧
    (step s (StudyEvent.shuffle result)).isFlipped = false ∧
    (step s (StudyEvent.shuffle result)).correctCount = 0 ∧
    (step s (StudyEvent.shuffle result)).incorrectCount = 0 :=
  ⟨hres.trans (reachable_perm cards s h).2, rfl, rfl, rfl, rfl⟩

/-- C9 witness: mid-session (after one `next`) over `[cardA, cardB, cardC]`,
shuffling to `[cardC, cardA, cardB]` gives an order that is a permutation of
the full snapshot. -/
theorem shuffle_permutes_snapshot_witness :
    (step (step (initSession [cardA, cardB, cardC]) StudyEvent.next)
        (StudyEvent.shuffle [cardC, cardA, cardB])).studyCards.Perm
      [cardA, cardB, cardC] :=
  (shuffle_permutes_snapshot [cardA, cardB, cardC] [cardC, cardA, cardB]
    (step (initSession [cardA, cardB, cardC]) StudyEvent.next)
    (Reachable.step Reachable.init trivial) (by decide)).1

/-- The `Forall₂` between a list and its pointwise image. -/
theorem forall2_map_self {α : Type} (R : α → α → Prop) (f : α → α)
    (l : List α) (h : ∀ a ∈ l, R a (f a)) :
    List.Forall₂ R l (l.map f) := by
  induction l with
  | nil => simp
  | cons x xs ih =>
    rw [List.map_cons]
    exact List.Forall₂.cons (h x (by simp))
      (ih (fun a ha => h a (List.mem_cons_of_mem x ha)))

/-- C10: updates overwrite only the intended content fields. A successful
`updateDeckForUser` leaves the cards table unchanged and maps each deck row to
a row with the same `id`, `userId` and `createdAt`; the targeted row gets the
new `name` and `updatedAt`, and the new `description` when one is supplied —
an absent description is skipped by the update (drizzle drops `undefined` set
entries), so the old value is retained; every other row is untouched. A
successful `updateCardForUser` leaves the decks table unchanged and maps each
card row to a row with the same `id`, `deckId` and `createdAt`; the targeted
row gets the new `front`, `back` and `updatedAt`, every other row is
untouched. No update can move an entity to another owner or another deck. -/
theorem updates_change_only_content (s s' t t' : Store)
    (deckId cardId : Nat) (userId : String) (name front back : String)
    (description : Option String) (now : Nat) :
    (updateDeckForUser s deckId userId name description now = Except.ok s' →
      s'.cards = s.cards ∧
      List.Forall₂ (fun d d' =>
        d'.id = d.id ∧ d'.userId = d.userId ∧ d'.createdAt = d.createdAt ∧
        (d.id = deckId →
          d'.name = name ∧ d'.updatedAt = now ∧
          (∀ v, description = some v → d'.description = some v) ∧
          (description = none → d'.description = d.description)) ∧
        (d.id ≠ deckId → d' = d)) s.decks s'.decks) ∧
    (updateCardForUser t cardId userId front back now = Except.ok t' →
      t'.decks = t.decks ∧
      List.Forall₂ (fun c c' =>
        c'.id = c.id ∧ c'.deckId = c.deckId ∧ c'.createdAt = c.createdAt ∧
        (c.id = cardId →
          c'.front = front ∧ c'.back = back ∧ c'.updatedAt = now) ∧
        (c.id ≠ cardId → c' = c)) t.cards t'.cards) := by
  constructor
  · intro h
    rw [updateDeckForUser] at h
    cases hd : getDeckById s deckId userId with
    | none => rw [hd] at h; exact absurd h (by simp)
    | some d0 =>
      rw [hd] at h
      have hs' : s' = { s with
          decks := s.decks.map (fun d =>
            if d.id == deckId then updateDeckRow d name description now
            else d) } := by
        cases h; rfl
      subst hs'
      refine ⟨rfl, forall2_map_self _ _ _ ?_⟩
      intro d _
      by_cases hid : d.id = deckId
      · cases description with
        | none => simp [hid, updateDeckRow]
        | some v => simp [hid, updateDeckRow]
      · simp [hid]
  · intro h
    rw [updateCardForUser] at h
    cases hc : getCardById t cardId userId with
    | none => rw [hc] at h; exact absurd h (by simp)
    | some c0 =>
      rw [hc] at h
      have ht' : t' = { t with
          cards := t.cards.map (fun c =>
            if c.id == cardId then updateCardRow c front back now
            else c) } := by
        cases h; rfl
      subst ht'
      refine ⟨rfl, forall2_map_self _ _ _ ?_⟩
      intro c _
      by_cases hid : c.id = cardId
      · simp [hid, updateCardRow]
      · simp [hid]

/-- C10 witness: renaming deck 10 of `storeA` to `German`/`Nouns` at instant 5
keeps id, owner and creation time of the row while overwriting its content
fields, and leaves the cards table alone. -/
theorem updates_change_only_content_witness :
    storeAUpdated.cards = storeA.cards ∧
    List.Forall₂ (fun (d d' : Deck) =>
      d'.id = d.id ∧ d'.userId = d.userId ∧ d'.createdAt = d.createdAt ∧
      (d.id = 10 →
        d'.name = "German" ∧ d'.updatedAt = 5 ∧
        (∀ v, (some "Nouns" : Option String) = some v →
          d'.description = some v) ∧
        ((some "Nouns" : Option String) = none →
          d'.description = d.description)) ∧
      (d.id ≠ 10 → d' = d)) storeA.decks storeAUpdated.decks :=
  (updates_change_only_content storeA storeAUpdated storeA storeA 10 1 "u1"
    "German" "x" "y" (some "Nouns") 5).1 rfl
